import Mathlib

/-!
Verification of the Luna voice-assistant client core against its
natural-language specification.  The TypeScript modules
`animation-engine.ts`, `websocket-manager.ts`, `keyboard-handler.ts` and
`app.ts` are shallowly embedded: JavaScript numbers become rationals,
`x?: number` fields become `Option ℚ`, mutation becomes explicit state
passing, and a thrown `TypeError` becomes `Except.error`.
-/

namespace Luna

/-- Models the JavaScript expression `x || 0` on a plain number: `0` is falsy
and is replaced by `0`, every other number is returned unchanged (on rationals
this is the identity; it is kept as a definition to mirror the source). -/
def jsOrZero (x : ℚ) : ℚ := if x = 0 then 0 else x

/-- AnimationEngine.clamp: `Math.min(Math.max(value, min), max)`. -/
def clamp (value lo hi : ℚ) : ℚ := min (max value lo) hi

/-- AnimationEngine.lerp: `current + (target - current) * factor`. -/
def lerp (current target factor : ℚ) : ℚ := current + (target - current) * factor

/-- AnimationEngine.dynamicSmooth: the amplitude-adaptive smoothing step
`factor = min(baseFactor * (1 + |target-current| * 0.5), 0.3)`,
`current + (target - current) * factor`. -/
def dynamicSmooth (current target baseFactor : ℚ) : ℚ :=
  let diff := |target - current|
  let dynamicFactor := min (baseFactor * (1 + diff * (1/2))) (3/10)
  current + (target - current) * dynamicFactor

/-- The `AudioAnalysisData` interface from `types/index.ts`: `time` is
optional, the loudness bands are required numbers. -/
structure AudioAnalysisData where
  time : Option ℚ
  volume : ℚ
  bass : ℚ
  low_mid : ℚ
  high : ℚ
deriving DecidableEq, Repr

/-- The `CurrentSpeakingData` interface from `types/index.ts`. -/
structure CurrentSpeakingData where
  volume : ℚ
  bass : ℚ
  mid : ℚ
  high : ℚ
deriving DecidableEq, Repr

/-- The value of `data[i].time || 0` read by the binary search: a missing
element or a missing `time` field reads as `0`. -/
def timeAt (data : List AudioAnalysisData) (i : ℕ) : ℚ :=
  jsOrZero (((data.get? i).bind AudioAnalysisData.time).getD 0)

/-- The loop of AnimationEngine.binarySearchByTime.  `left`/`right` are the
JavaScript loop variables (integers, `right` may reach `-1`), `result` the
accumulator initialised to `0`; `Math.floor((left + right) / 2)` is floor
division. -/
def binarySearchGo (data : List AudioAnalysisData) (e : ℚ)
    (left right : ℤ) (result : ℕ) : ℕ :=
  if h : left ≤ right then
    let mid : ℤ := (left + right).fdiv 2
    if timeAt data mid.toNat ≤ e then
      binarySearchGo data e (mid + 1) right mid.toNat
    else
      binarySearchGo data e left (mid - 1) result
  else result
termination_by (right + 1 - left).toNat
decreasing_by
  · have h1 : left ≤ (left + right).fdiv 2 := by
      rw [Int.fdiv_eq_ediv _ (by norm_num : (0:ℤ) ≤ 2)]
      rw [Int.le_ediv_iff_mul_le (by norm_num)]
      omega
    omega
  · have h2 : (left + right).fdiv 2 ≤ right := by
      rw [Int.fdiv_eq_ediv _ (by norm_num : (0:ℤ) ≤ 2)]
      have := Int.ediv_lt_iff_lt_mul (a := left + right) (b := right + 1)
        (c := (2:ℤ)) (by norm_num)
      omega
    omega

/-- AnimationEngine.binarySearchByTime: searches `[0, length-1]` with the
result accumulator starting at `0`. -/
def binarySearchByTime (data : List AudioAnalysisData) (e : ℚ) : ℕ :=
  binarySearchGo data e 0 ((data.length : ℤ) - 1) 0

/-- The numeric fields of `AnimationConfig` from `types/index.ts`. -/
structure AnimationConfig where
  numPoints : ℕ
  baseRadius : ℚ
  centerX : ℚ
  centerY : ℚ
  noiseStep : ℚ
  maxScale : ℚ
  maxBrightness : ℚ
  maxBlur : ℚ
  minScale : ℚ
  minBrightness : ℚ
  minBlur : ℚ
deriving DecidableEq, Repr

/-- The `ANIMATION_CONFIG` constant from `config.ts`. -/
def ANIMATION_CONFIG : AnimationConfig :=
  { numPoints := 8
    baseRadius := 55
    centerX := 100
    centerY := 100
    noiseStep := 0.002
    maxScale := 1.5
    maxBrightness := 8
    maxBlur := 25
    minScale := 0.95
    minBrightness := 1.2
    minBlur := 12 }

/-- The `ANIMATION_BUFFERING_DELAY` constant from `config.ts` (milliseconds). -/
def ANIMATION_BUFFERING_DELAY : ℚ := 150

/-- The `TIME_CONVERSION_MULTIPLIER` constant from `config.ts`. -/
def TIME_CONVERSION_MULTIPLIER : ℚ := 1000

/-- The mutable fields of `AnimationEngine` that the playback synchronizer
reads and writes (the control-point ring and DOM handles are omitted: no
claim mentions them). -/
structure EngineState where
  smoothedHaloScale : ℚ
  smoothedHaloBrightness : ℚ
  smoothedHaloBlur : ℚ
  smoothedDisplacement : ℚ
  speakingSmoothVolume : ℚ
  speakingSmoothBass : ℚ
  speakingSmoothMid : ℚ
  audioAnalysisData : Option (List AudioAnalysisData)
  speakingDuration : ℚ
  serverStartTime : ℚ
  clientStartTime : ℚ
  clockOffset : ℚ
  bufferingDelay : ℚ
deriving DecidableEq, Repr

/-- The field initialisers of `AnimationEngine`. -/
def initialEngineState : EngineState :=
  { smoothedHaloScale := 1
    smoothedHaloBrightness := 6
    smoothedHaloBlur := 15
    smoothedDisplacement := 0
    speakingSmoothVolume := 0
    speakingSmoothBass := 0
    speakingSmoothMid := 0
    audioAnalysisData := none
    speakingDuration := 0
    serverStartTime := 0
    clientStartTime := 0
    clockOffset := 0
    bufferingDelay := ANIMATION_BUFFERING_DELAY }

/-- AnimationEngine.setAudioAnalysisData; `now` stands for `Date.now()`. -/
def setAudioAnalysisData (s : EngineState) (analysis : List AudioAnalysisData)
    (duration startTime now : ℚ) : EngineState :=
  { s with
    audioAnalysisData := some analysis
    speakingDuration := duration * TIME_CONVERSION_MULTIPLIER
    serverStartTime := startTime * TIME_CONVERSION_MULTIPLIER
    clientStartTime := now
    clockOffset := now - startTime * TIME_CONVERSION_MULTIPLIER }

/-- AnimationEngine.clearAudioAnalysisData. -/
def clearAudioAnalysisData (s : EngineState) : EngineState :=
  { s with audioAnalysisData := none }

/-- AnimationEngine.calculateElapsedSeconds, for wall clock `now`. -/
def calculateElapsedSeconds (s : EngineState) (now : ℚ) : ℚ :=
  let serverTimeNow := now - s.clockOffset
  let elapsedMs := serverTimeNow - s.serverStartTime
  max 0 ((elapsedMs - s.bufferingDelay) / TIME_CONVERSION_MULTIPLIER)

/-- AnimationEngine.calculateIndexByProgress: the uniform-index fallback
`Math.floor(min(elapsedMs / speakingDuration, 1) * length)`.  The result is
an integer because nothing in the source keeps it inside the array bounds. -/
def calculateIndexByProgress (speakingDuration : ℚ) (length : ℕ)
    (elapsedSec : ℚ) : ℤ :=
  let elapsedMs := elapsedSec * TIME_CONVERSION_MULTIPLIER
  let progress := min (elapsedMs / speakingDuration) 1
  ⌊progress * length⌋

/-- AnimationEngine.findDataIndex: dispatches to the binary search when the
first sample carries a numeric `time`, to the uniform estimate otherwise. -/
def findDataIndex (data : List AudioAnalysisData) (speakingDuration : ℚ)
    (elapsedSec : ℚ) : ℤ :=
  if ((data.head?).bind AudioAnalysisData.time).isSome then
    (binarySearchByTime data elapsedSec : ℤ)
  else
    calculateIndexByProgress speakingDuration data.length elapsedSec

/-- AnimationEngine.createCurrentSpeakingData:
`Math.min(dataPoint.field || 0, 1)` for each band (`low_mid` feeds `mid`). -/
def createCurrentSpeakingData (dataPoint : AudioAnalysisData) :
    CurrentSpeakingData :=
  { volume := min (jsOrZero dataPoint.volume) 1
    bass := min (jsOrZero dataPoint.bass) 1
    mid := min (jsOrZero dataPoint.low_mid) 1
    high := min (jsOrZero dataPoint.high) 1 }

/-- The JavaScript array read `data[i]` for a possibly out-of-range signed
index: a negative or too-large index reads `undefined` (`none`). -/
def arrayGet (data : List AudioAnalysisData) (i : ℤ) :
    Option AudioAnalysisData :=
  if i < 0 then none else data.get? i.toNat

/-- AnimationEngine.getCurrentSpeakingData.  `Except.error ()` models the
TypeError thrown when the selected index reads `undefined` and
`createCurrentSpeakingData` dereferences it; `Except.ok none` is the `null`
return taken when no analysis data is loaded. -/
def getCurrentSpeakingData (s : EngineState) (now : ℚ) :
    Except Unit (Option CurrentSpeakingData) :=
  match s.audioAnalysisData with
  | none => .ok none
  | some data =>
    let elapsedSec := calculateElapsedSeconds s now
    let dataIndex := findDataIndex data s.speakingDuration elapsedSec
    match arrayGet data dataIndex with
    | none => .error ()
    | some dataPoint => .ok (some (createCurrentSpeakingData dataPoint))

/-- AnimationEngine.updateAudioSmoothing (sFactor = 0.2). -/
def updateAudioSmoothing (s : EngineState) (speakingData : CurrentSpeakingData) :
    EngineState :=
  let sFactor : ℚ := 0.2
  { s with
    speakingSmoothVolume := lerp s.speakingSmoothVolume speakingData.volume sFactor
    speakingSmoothBass := lerp s.speakingSmoothBass speakingData.bass sFactor
    speakingSmoothMid := lerp s.speakingSmoothMid speakingData.mid sFactor }

/-- AnimationEngine.calculateAudioInfluences: returns `(audio, bass)`. -/
def calculateAudioInfluences (s : EngineState) : ℚ × ℚ :=
  let volumeNorm := clamp (s.speakingSmoothVolume * 3) 0 1
  let bassNorm := clamp (s.speakingSmoothBass * volumeNorm * 1.2) 0 1
  (volumeNorm, bassNorm)

/-- AnimationEngine.updateHaloProperties. -/
def updateHaloProperties (config : AnimationConfig) (s : EngineState)
    (influences : ℚ × ℚ) : EngineState :=
  let targetScale := clamp (1 + influences.1 * 0.4 + influences.2 * 0.3)
    config.minScale config.maxScale
  let targetBrightness := clamp (6 + influences.1 * 1.2 + influences.2 * 0.8)
    config.minBrightness config.maxBrightness
  let targetBlur := clamp (15 + influences.2 * 12) config.minBlur config.maxBlur
  { s with
    smoothedHaloScale := dynamicSmooth s.smoothedHaloScale targetScale 0.25
    smoothedHaloBrightness :=
      dynamicSmooth s.smoothedHaloBrightness targetBrightness 0.25
    smoothedHaloBlur := dynamicSmooth s.smoothedHaloBlur targetBlur 0.25 }

/-- AnimationEngine.calculateDisplacement: returns the updated state and the
returned displacement. -/
def calculateDisplacement (s : EngineState) (influences : ℚ × ℚ) :
    EngineState × ℚ :=
  let targetDisplacement :=
    min (influences.1 * 50 + influences.2 * 30 + s.speakingSmoothMid * 20) 80
  let d := dynamicSmooth s.smoothedDisplacement targetDisplacement 0.2
  ({ s with smoothedDisplacement := d }, d)

/-- The smoothing tail of AnimationEngine.updateSpeakingAnimation, run once a
sample has been selected and the (dead) finished-guard has been passed:
updateAudioSmoothing, calculateAudioInfluences, updateHaloProperties,
calculateDisplacement. -/
def speakingAdvance (config : AnimationConfig) (s : EngineState)
    (speakingData : CurrentSpeakingData) : EngineState × ℚ :=
  let s1 := updateAudioSmoothing s speakingData
  let influences := calculateAudioInfluences s1
  let s2 := updateHaloProperties config s1 influences
  calculateDisplacement s2 influences

/-- The capped progress computed inside updateSpeakingAnimation:
`min(max(0, now - clockOffset - serverStartTime - bufferingDelay)
/ speakingDuration, 1)`. -/
def cappedProgress (s : EngineState) (now : ℚ) : ℚ :=
  let serverTimeNow := now - s.clockOffset
  let elapsed := serverTimeNow - s.serverStartTime
  let adjustedElapsed := max 0 (elapsed - s.bufferingDelay)
  min (adjustedElapsed / s.speakingDuration) 1

/-- AnimationEngine.updateSpeakingAnimation: samples first, then computes the
capped progress, returns `0` displacement from the `progress > 1` branch,
otherwise runs the smoothing tail.  Propagates the sampling TypeError. -/
def updateSpeakingAnimation (config : AnimationConfig) (s : EngineState)
    (now : ℚ) : Except Unit (EngineState × ℚ) :=
  match getCurrentSpeakingData s now with
  | .error err => .error err
  | .ok none => .ok (s, 0)
  | .ok (some speakingData) =>
    if 1 < cappedProgress s now then .ok (s, 0)
    else .ok (speakingAdvance config s speakingData)

/-- AnimationEngine.updateIdleAnimation: every smoothed quantity decays
toward its resting value with base factor 0.08. -/
def updateIdleAnimation (s : EngineState) : EngineState × ℚ :=
  let s' :=
    { s with
      smoothedHaloScale := dynamicSmooth s.smoothedHaloScale 1 0.08
      smoothedHaloBrightness := dynamicSmooth s.smoothedHaloBrightness 6 0.08
      smoothedHaloBlur := dynamicSmooth s.smoothedHaloBlur 15 0.08
      speakingSmoothVolume := dynamicSmooth s.speakingSmoothVolume 0 0.08
      speakingSmoothBass := dynamicSmooth s.speakingSmoothBass 0 0.08
      speakingSmoothMid := dynamicSmooth s.speakingSmoothMid 0 0.08
      smoothedDisplacement := dynamicSmooth s.smoothedDisplacement 0 0.08 }
  (s', s'.smoothedDisplacement)

/-- The `AppMode` union from `types/index.ts`. -/
inductive AppMode where
  | idle
  | recording
  | processing
  | speaking
  | text
deriving DecidableEq, Repr

/-- AnimationEngine.updateAnimationState: the speaking branch requires mode
`speaking` and a loaded (truthy) analysis array. -/
def updateAnimationState (config : AnimationConfig) (s : EngineState)
    (mode : AppMode) (now : ℚ) : Except Unit (EngineState × ℚ) :=
  if mode = .speaking ∧ s.audioAnalysisData.isSome then
    updateSpeakingAnimation config s now
  else
    .ok (updateIdleAnimation s)

/-- One external stimulus to the engine: a render tick at wall-clock `now`
in a given mode, a received `audio_analysis` payload, or a clear. -/
inductive EngineEvent where
  | tick (mode : AppMode) (now : ℚ)
  | setData (analysis : List AudioAnalysisData) (duration startTime now : ℚ)
  | clearData
deriving Repr

/-- One engine step.  A tick runs updateAnimationState under the `animate`
try/catch: a thrown TypeError leaves the state as it was (all mutations of
the speaking path happen after the sampling that throws). -/
def engineStep (config : AnimationConfig) (s : EngineState)
    (ev : EngineEvent) : EngineState :=
  match ev with
  | .tick mode now =>
    match updateAnimationState config s mode now with
    | .error _ => s
    | .ok (s', _) => s'
  | .setData analysis duration startTime now =>
    setAudioAnalysisData s analysis duration startTime now
  | .clearData => clearAudioAnalysisData s

/-- A run of the engine from its initial state. -/
def runEngine (config : AnimationConfig) (evs : List EngineEvent) : EngineState :=
  evs.foldl (engineStep config) initialEngineState

/-- The numeric fields of `TimingConfig` (see `config.ts`). -/
structure TimingConfig where
  bufferingDelay : ℚ
  estimatedStartDelay : ℚ
  wsReconnectDelay : ℚ
  maxReconnectAttempts : ℕ
deriving DecidableEq, Repr

/-- The `TIMING_CONFIG` constant from `config.ts`. -/
def TIMING_CONFIG : TimingConfig :=
  { bufferingDelay := 150
    estimatedStartDelay := 300
    wsReconnectDelay := 1000
    maxReconnectAttempts := 5 }

/-- WebSocket.readyState values. -/
inductive ReadyState where
  | connecting
  | opened
  | closing
  | closed
deriving DecidableEq, Repr

/-- One transport object created by `new WebSocket(...)`, identified so that
events of an old, discarded socket can be told apart from the current one. -/
structure Transport where
  id : ℕ
  readyState : ReadyState
deriving DecidableEq, Repr

/-- The WebSocketManager fields together with the host environment the
manager manipulates: the set of live `setTimeout` reconnect timers, and the
close events of sockets that were `close()`d but whose `onclose` handler is
still attached and will still be delivered.  `lastScheduledDelay` records
the delay argument passed to the most recent `setTimeout` (an observation
variable; the code passes it and forgets it). -/
structure WSState where
  ws : Option Transport
  reconnectTimerId : Option ℕ
  reconnectAttempts : ℕ
  liveTimers : List (ℕ × ℚ)
  pendingCloseEvents : List ℕ
  lastScheduledDelay : Option ℚ
  nextTransportId : ℕ
  nextTimerId : ℕ
deriving DecidableEq, Repr

/-- The manager's initial state: `ws = null`, no timer, zero attempts. -/
def initWSState : WSState :=
  { ws := none
    reconnectTimerId := none
    reconnectAttempts := 0
    liveTimers := []
    pendingCloseEvents := []
    lastScheduledDelay := none
    nextTransportId := 0
    nextTimerId := 0 }

/-- WebSocketManager.clearReconnectTimer: `clearTimeout` removes the tracked
timer from the environment and nulls the field. -/
def clearReconnectTimer (s : WSState) : WSState :=
  match s.reconnectTimerId with
  | none => s
  | some tid =>
    { s with
      reconnectTimerId := none
      liveTimers := s.liveTimers.filter (fun t => t.1 ≠ tid) }

/-- WebSocketManager.scheduleReconnect: clears any pending timer, resets the
attempt counter to 0 once it has reached the configured maximum, increments
it, and schedules a reconnect after
`min(wsReconnectDelay * 1.5^(attempts-1), 10000)` ms. -/
def scheduleReconnect (timing : TimingConfig) (s : WSState) : WSState :=
  let s1 := clearReconnectTimer s
  let attempts0 :=
    if timing.maxReconnectAttempts ≤ s1.reconnectAttempts then 0
    else s1.reconnectAttempts
  let attempts := attempts0 + 1
  let delay := min (timing.wsReconnectDelay * (3/2 : ℚ) ^ (attempts - 1)) 10000
  { s1 with
    reconnectAttempts := attempts
    reconnectTimerId := some s1.nextTimerId
    liveTimers := s1.liveTimers ++ [(s1.nextTimerId, delay)]
    lastScheduledDelay := some delay
    nextTimerId := s1.nextTimerId + 1 }

/-- WebSocketManager.cleanup: `ws.close()` then `ws = null`.  Closing a
socket queues its close event for later delivery; its handlers stay
attached. -/
def wsCleanup (s : WSState) : WSState :=
  match s.ws with
  | none => s
  | some t =>
    { s with
      ws := none
      pendingCloseEvents := s.pendingCloseEvents ++ [t.id] }

/-- WebSocketManager.connect, successful construction: returns early while a
connection attempt is in flight, otherwise discards any prior transport and
installs a fresh CONNECTING one. -/
def wsConnect (s : WSState) : WSState :=
  match s.ws with
  | some t =>
    if t.readyState = .connecting then s
    else
      let s1 := wsCleanup s
      { s1 with
        ws := some ⟨s1.nextTransportId, .connecting⟩
        nextTransportId := s1.nextTransportId + 1 }
  | none =>
    let s1 := wsCleanup s
    { s1 with
      ws := some ⟨s1.nextTransportId, .connecting⟩
      nextTransportId := s1.nextTransportId + 1 }

/-- WebSocketManager.disconnect: cleanup, then clear the reconnect timer. -/
def wsDisconnect (s : WSState) : WSState :=
  clearReconnectTimer (wsCleanup s)

/-- WebSocketManager.send, as the pair (returned boolean, whether
`ws.send` was invoked on the transport).  Both are true exactly when a
transport exists in the OPEN state; the function is total (never throws). -/
def wsSend (s : WSState) : Bool × Bool :=
  match s.ws with
  | some t => if t.readyState = .opened then (true, true) else (false, false)
  | none => (false, false)

/-- The externally triggered events a WebSocketManager reacts to. -/
inductive WSEvent where
  /-- a call to `connect()` whose `new WebSocket` succeeds -/
  | connect
  /-- a call to `connect()` whose `new WebSocket` throws -/
  | connectFail
  /-- a call to `disconnect()` -/
  | disconnect
  /-- the `open` event of the current transport -/
  | openEvt
  /-- the `close` event of the current transport (connection lost) -/
  | remoteClose
  /-- delivery of the queued close event of a discarded transport -/
  | queuedClose (tid : ℕ)
  /-- a live reconnect timer fires and runs `connect()` -/
  | timerFire (tid : ℕ)
deriving DecidableEq, Repr

/-- One step of the manager.  `onopen` resets the attempt counter; every
`onclose` handler run — also one belonging to a discarded transport —
calls scheduleReconnect; a fired timer leaves the stale id in
`reconnectTimerId` (the code never nulls it there) and calls `connect()`. -/
def wsStep (timing : TimingConfig) (s : WSState) (ev : WSEvent) : WSState :=
  match ev with
  | .connect => wsConnect s
  | .connectFail =>
    match s.ws with
    | some t =>
      if t.readyState = .connecting then s
      else scheduleReconnect timing (wsCleanup s)
    | none => scheduleReconnect timing (wsCleanup s)
  | .disconnect => wsDisconnect s
  | .openEvt =>
    match s.ws with
    | some t =>
      if t.readyState = .connecting then
        { s with ws := some { t with readyState := .opened },
                 reconnectAttempts := 0 }
      else s
    | none => s
  | .remoteClose =>
    match s.ws with
    | some t =>
      scheduleReconnect timing { s with ws := some { t with readyState := .closed } }
    | none => s
  | .queuedClose tid =>
    if s.pendingCloseEvents.contains tid then
      scheduleReconnect timing
        { s with pendingCloseEvents := s.pendingCloseEvents.filter (· ≠ tid) }
    else s
  | .timerFire tid =>
    match s.liveTimers.lookup tid with
    | some _ =>
      wsConnect { s with liveTimers := s.liveTimers.filter (fun t => t.1 ≠ tid) }
    | none => s

/-- A run of the manager from its initial state. -/
def runWS (timing : TimingConfig) (evs : List WSEvent) : WSState :=
  evs.foldl (wsStep timing) initWSState

/-- KeyboardHandler: the shape of a keydown event as far as the router
reads it. -/
structure KeyEvent where
  code : String
  ctrlKey : Bool
  altKey : Bool
  metaKey : Bool
  shiftKey : Bool
deriving DecidableEq, Repr

/-- VoiceAssistantApp.stopRecording, synchronous part: guard on `recording`,
then `setMode('processing')` (the rest of processRecording resumes after an
await, i.e. after the key handler has returned). -/
def stopRecordingMode (m : AppMode) : AppMode :=
  if m = .recording then .processing else m

/-- VoiceAssistantApp.stopSpeaking, synchronous part: unconditionally
`setMode('idle')` (the stop message does not change the mode). -/
def stopSpeakingMode (_m : AppMode) : AppMode := .idle

/-- VoiceAssistantApp.handleEscape, the mode when the handler returns: each
branch runs its cancellation and then the trailing `setMode('idle')`; the
`text` branch sets `idle` itself and returns early. -/
def handleEscape (m : AppMode) : AppMode :=
  if m = .recording then
    let _m1 := stopRecordingMode m
    .idle
  else if m = .speaking then
    let _m1 := stopSpeakingMode m
    .idle
  else if m = .text then .idle
  else .idle

/-- VoiceAssistantApp.handleSpaceKey, synchronous part: from `idle` the mode
only changes after the microphone promise resolves, so it is unchanged when
the handler returns; from `recording` stopRecording sets `processing`; from
`speaking` stopSpeaking sets `idle`. -/
def handleSpaceKeyMode (m : AppMode) : AppMode :=
  match m with
  | .idle => .idle
  | .recording => stopRecordingMode .recording
  | .speaking => stopSpeakingMode .speaking
  | m => m

/-- VoiceAssistantApp.toggleTextMode: `text` and `idle` swap, other modes
are left alone. -/
def toggleTextModeMode (m : AppMode) : AppMode :=
  if m = .text then .idle
  else if m = .idle then .text
  else m

/-- The `keyHandler` installed by KeyboardHandler.setupEventListeners, as a
function from the event, the typing-context flag and the current mode to
the mode when the handler returns: Escape is routed first; then typing
context and Ctrl/Alt/Meta suppress everything; Shift suppresses Space and
KeyT; KeyR toggles response visibility (no mode change). -/
def keyHandlerMode (e : KeyEvent) (isInTypingContext : Bool) (m : AppMode) :
    AppMode :=
  if e.code = "Escape" then handleEscape m
  else if isInTypingContext then m
  else if e.ctrlKey || e.altKey || e.metaKey then m
  else if e.code = "Space" then
    if !e.shiftKey then handleSpaceKeyMode m else m
  else if e.code = "KeyT" then
    if !e.shiftKey then toggleTextModeMode m else m
  else m

/-- The timer invariant of the manager: the environment holds no live
reconnect timer, or exactly one, and then it is the one the manager's
`reconnectTimer` field tracks. -/
def WSInv (s : WSState) : Prop :=
  s.liveTimers = [] ∨
    ∃ tid d, s.liveTimers = [(tid, d)] ∧ s.reconnectTimerId = some tid

/-- The bounds invariant of the three smoothed halo quantities. -/
def haloInv (config : AnimationConfig) (s : EngineState) : Prop :=
  config.minScale ≤ s.smoothedHaloScale ∧
  s.smoothedHaloScale ≤ config.maxScale ∧
  config.minBrightness ≤ s.smoothedHaloBrightness ∧
  s.smoothedHaloBrightness ≤ config.maxBrightness ∧
  config.minBlur ≤ s.smoothedHaloBlur ∧
  s.smoothedHaloBlur ≤ config.maxBlur

/-- The hypotheses on a configuration under which the halo invariant is
meaningful: the resting values 1 / 6 / 15 lie inside the configured bounds
(as they do for ANIMATION_CONFIG). -/
def restingWithinBounds (config : AnimationConfig) : Prop :=
  config.minScale ≤ 1 ∧ 1 ≤ config.maxScale ∧
  config.minBrightness ≤ 6 ∧ 6 ≤ config.maxBrightness ∧
  config.minBlur ≤ 15 ∧ 15 ≤ config.maxBlur

/-! Theorems. -/

theorem jsOrZero_eq (x : ℚ) : jsOrZero x = x := by
  unfold jsOrZero; split <;> simp_all

theorem midpoint_ge {l r : ℤ} (h : l ≤ r) : l ≤ (l + r).fdiv 2 := by
  rw [Int.fdiv_eq_ediv _ (by norm_num : (0:ℤ) ≤ 2)]
  rw [Int.le_ediv_iff_mul_le (by norm_num)]
  omega

theorem midpoint_le {l r : ℤ} (h : l ≤ r) : (l + r).fdiv 2 ≤ r := by
  rw [Int.fdiv_eq_ediv _ (by norm_num : (0:ℤ) ≤ 2)]
  have := Int.ediv_lt_iff_lt_mul (a := l + r) (b := r + 1) (c := (2:ℤ))
    (by norm_num)
  omega

/-- C9: from `recording`, `speaking` or `text`, an Escape keydown leaves the
mode at `idle` when the handler returns, for every typing-context flag and
every modifier combination (Escape is routed before both checks). -/
theorem escape_returns_idle (e : KeyEvent) (isInTypingContext : Bool)
    (m : AppMode) (hcode : e.code = "Escape")
    (hm : m = .recording ∨ m = .speaking ∨ m = .text) :
    keyHandlerMode e isInTypingContext m = .idle := by
  rcases hm with h | h | h <;> subst h <;>
    simp [keyHandlerMode, hcode, handleEscape]

theorem escape_returns_idle_witness :
    (KeyEvent.mk "Escape" true true true true).code = "Escape" ∧
    keyHandlerMode (KeyEvent.mk "Escape" true true true true) true .recording
      = .idle :=
  ⟨rfl, escape_returns_idle (KeyEvent.mk "Escape" true true true true) true
    .recording rfl (Or.inl rfl)⟩

/-- C10: whenever no transport exists or its readyState is not OPEN,
`send` returns false and performs no transport send call (and, being a total
function, never throws). -/
theorem send_not_open_noop (s : WSState)
    (h : s.ws.map Transport.readyState ≠ some .opened) :
    wsSend s = (false, false) := by
  unfold wsSend
  cases hws : s.ws with
  | none => rfl
  | some t =>
    have ht : t.readyState ≠ .opened := by
      intro he
      exact h (by rw [hws]; simp [he])
    simp [ht]

theorem send_not_open_noop_witness :
    (wsConnect initWSState).ws.map Transport.readyState ≠ some .opened ∧
    wsSend (wsConnect initWSState) = (false, false) :=
  ⟨by decide, send_not_open_noop (wsConnect initWSState) (by decide)⟩

/-- C6 counterexample: the claim that every selected sample field is clamped
into `[0, 1]` fails for values below 0 — `Math.min(x || 0, 1)` has no lower
clamp, so a producer volume of `-1/2` is passed through negative. -/
theorem clamp_negative_cex :
    (createCurrentSpeakingData ⟨none, -(1/2), 0, 0, 0⟩).volume = -(1/2) ∧
    (createCurrentSpeakingData ⟨none, -(1/2), 0, 0, 0⟩).volume < 0 := by
  constructor
  · with_unfolding_all rfl
  · rw [(by with_unfolding_all rfl :
      (createCurrentSpeakingData ⟨none, -(1/2), 0, 0, 0⟩).volume = -(1/2))]
    norm_num

/-- C6 amended: each field of the selected sample is clamped above by 1
(with missing fields read as 0), and any nonnegative producer value lands in
`[0, 1]`; values below 0 are not clamped and pass through. -/
theorem createSpeakingData_clamp_amended (d : AudioAnalysisData) :
    (createCurrentSpeakingData d).volume ≤ 1 ∧
    (createCurrentSpeakingData d).bass ≤ 1 ∧
    (createCurrentSpeakingData d).mid ≤ 1 ∧
    (createCurrentSpeakingData d).high ≤ 1 ∧
    (0 ≤ d.volume → 0 ≤ (createCurrentSpeakingData d).volume) ∧
    (0 ≤ d.bass → 0 ≤ (createCurrentSpeakingData d).bass) ∧
    (0 ≤ d.low_mid → 0 ≤ (createCurrentSpeakingData d).mid) ∧
    (0 ≤ d.high → 0 ≤ (createCurrentSpeakingData d).high) := by
  simp only [createCurrentSpeakingData, jsOrZero_eq]
  refine ⟨min_le_right _ _, min_le_right _ _, min_le_right _ _,
    min_le_right _ _, ?_, ?_, ?_, ?_⟩ <;>
    exact fun h => le_min h (by norm_num)

theorem createSpeakingData_clamp_amended_witness :
    0 ≤ (1/2 : ℚ) ∧
    0 ≤ (createCurrentSpeakingData ⟨none, 1/2, 3/4, 0, 2⟩).volume ∧
    (createCurrentSpeakingData ⟨none, 1/2, 3/4, 0, 2⟩).high ≤ 1 :=
  ⟨by norm_num,
   (createSpeakingData_clamp_amended ⟨none, 1/2, 3/4, 0, 2⟩).2.2.2.2.1
     (by norm_num),
   (createSpeakingData_clamp_amended ⟨none, 1/2, 3/4, 0, 2⟩).2.2.2.1⟩

/-- C8 counterexample: with two fallback samples, duration 1000 ms and
elapsed exactly 1 s, the uniform index is `floor(1 * 2) = 2`, which equals
the length (not strictly less), and the engine's sample read at that tick
dereferences `undefined` (the modelled TypeError). -/
theorem uniform_index_oob_cex :
    calculateIndexByProgress 1000 2 1 = 2 ∧
    ¬ calculateIndexByProgress 1000 2 1 < (2 : ℤ) ∧
    getCurrentSpeakingData
      (setAudioAnalysisData initialEngineState
        [⟨none, 1/2, 1/2, 1/2, 1/2⟩, ⟨none, 1/2, 1/2, 1/2, 1/2⟩] 1 0 0) 1150
      = .error () := by
  refine ⟨by with_unfolding_all rfl, ?_, by with_unfolding_all rfl⟩
  rw [(by with_unfolding_all rfl : calculateIndexByProgress 1000 2 1 = 2)]
  omega

/-- C8 amended: for a positive duration and nonempty fallback sequence, the
uniform index is nonnegative and strictly below the length whenever the
elapsed milliseconds are strictly below the duration; at or beyond the
duration the index reaches the length and the read is out of bounds. -/
theorem uniform_index_inbounds_amended (speakingDuration : ℚ) (length : ℕ)
    (elapsedSec : ℚ) (hdur : 0 < speakingDuration) (hlen : 0 < length)
    (helapsed : 0 ≤ elapsedSec)
    (hlt : elapsedSec * TIME_CONVERSION_MULTIPLIER < speakingDuration) :
    0 ≤ calculateIndexByProgress speakingDuration length elapsedSec ∧
    calculateIndexByProgress speakingDuration length elapsedSec
      < (length : ℤ) := by
  unfold calculateIndexByProgress
  simp only
  have hp0 : 0 ≤ min (elapsedSec * TIME_CONVERSION_MULTIPLIER / speakingDuration) 1 := by
    apply le_min _ (by norm_num)
    unfold TIME_CONVERSION_MULTIPLIER
    positivity
  have hp1 : min (elapsedSec * TIME_CONVERSION_MULTIPLIER / speakingDuration) 1 < 1 := by
    apply lt_of_le_of_lt (min_le_left _ _)
    rw [div_lt_one hdur]
    exact hlt
  constructor
  · exact Int.floor_nonneg.mpr (by positivity)
  · apply Int.floor_lt.mpr
    push_cast
    calc min (elapsedSec * TIME_CONVERSION_MULTIPLIER / speakingDuration) 1
        * (length : ℚ) < 1 * (length : ℚ) := by
          apply mul_lt_mul_of_pos_right hp1
          exact_mod_cast hlen
    _ = (length : ℚ) := one_mul _

theorem uniform_index_inbounds_amended_witness :
    (0 : ℚ) < 1000 ∧ (0 : ℕ) < 2 ∧ (0 : ℚ) ≤ 1/2 ∧
    (1/2 : ℚ) * TIME_CONVERSION_MULTIPLIER < 1000 ∧
    0 ≤ calculateIndexByProgress 1000 2 (1/2) ∧
    calculateIndexByProgress 1000 2 (1/2) < (2 : ℤ) :=
  ⟨by norm_num, by norm_num, by norm_num,
   by rw [TIME_CONVERSION_MULTIPLIER]; norm_num,
   (uniform_index_inbounds_amended 1000 2 (1/2) (by norm_num) (by norm_num)
     (by norm_num) (by rw [TIME_CONVERSION_MULTIPLIER]; norm_num)).1,
   (uniform_index_inbounds_amended 1000 2 (1/2) (by norm_num) (by norm_num)
     (by norm_num) (by rw [TIME_CONVERSION_MULTIPLIER]; norm_num)).2⟩

/-- C2 fails on the code: at a render tick whose adjusted elapsed time
(2000 ms) exceeds the stated duration (1000 ms), the update still samples
the (last) analysis element and returns a nonzero displacement.  The raw
progress is 2, but the source caps it with `Math.min(..., 1)` on the line
before testing `> 1`, so the finished-branch is unreachable, and the sample
lookup happens before the test anyway. -/
theorem progressGuard_dead_code :
    (setAudioAnalysisData initialEngineState
        [⟨some 0, 0.8, 0.6, 0.5, 0.4⟩] 1 0 0).speakingDuration = 1000 ∧
    max 0 ((2150 : ℚ)
        - (setAudioAnalysisData initialEngineState
            [⟨some 0, 0.8, 0.6, 0.5, 0.4⟩] 1 0 0).clockOffset
        - (setAudioAnalysisData initialEngineState
            [⟨some 0, 0.8, 0.6, 0.5, 0.4⟩] 1 0 0).serverStartTime
        - (setAudioAnalysisData initialEngineState
            [⟨some 0, 0.8, 0.6, 0.5, 0.4⟩] 1 0 0).bufferingDelay) = 2000 ∧
    cappedProgress (setAudioAnalysisData initialEngineState
        [⟨some 0, 0.8, 0.6, 0.5, 0.4⟩] 1 0 0) 2150 = 1 ∧
    getCurrentSpeakingData (setAudioAnalysisData initialEngineState
        [⟨some 0, 0.8, 0.6, 0.5, 0.4⟩] 1 0 0) 2150
      = .ok (some ⟨4/5, 3/5, 1/2, 2/5⟩) ∧
    (updateSpeakingAnimation ANIMATION_CONFIG
        (setAudioAnalysisData initialEngineState
          [⟨some 0, 0.8, 0.6, 0.5, 0.4⟩] 1 0 0) 2150).map Prod.snd
      = .ok (26319/3125) := by
  refine ⟨by with_unfolding_all rfl, by with_unfolding_all rfl,
    by with_unfolding_all rfl, by with_unfolding_all rfl,
    by with_unfolding_all rfl⟩

/-- C7 counterexample: an `audio_analysis` event with duration `-1` (in the
claim's scope "0 or negative") is not treated as finished: the speaking
update still samples the sequence and returns a nonzero displacement, and
the capped progress is negative, not `≥ 1`. -/
theorem nonpositive_duration_cex :
    (setAudioAnalysisData initialEngineState
        [⟨some 0, 0.8, 0.6, 0.5, 0.4⟩] (-1) 0 0).speakingDuration < 0 ∧
    getCurrentSpeakingData (setAudioAnalysisData initialEngineState
        [⟨some 0, 0.8, 0.6, 0.5, 0.4⟩] (-1) 0 0) 500
      = .ok (some ⟨4/5, 3/5, 1/2, 2/5⟩) ∧
    (updateSpeakingAnimation ANIMATION_CONFIG
        (setAudioAnalysisData initialEngineState
          [⟨some 0, 0.8, 0.6, 0.5, 0.4⟩] (-1) 0 0) 500).map Prod.snd
      = .ok (26319/3125) ∧
    cappedProgress (setAudioAnalysisData initialEngineState
        [⟨some 0, 0.8, 0.6, 0.5, 0.4⟩] (-1) 0 0) 500 < 1 := by
  refine ⟨?_, by with_unfolding_all rfl, by with_unfolding_all rfl, ?_⟩
  · rw [(by with_unfolding_all rfl : (setAudioAnalysisData initialEngineState
        [⟨some 0, 0.8, 0.6, 0.5, 0.4⟩] (-1) 0 0).speakingDuration = -1000)]
    norm_num
  · rw [(by with_unfolding_all rfl : cappedProgress (setAudioAnalysisData
        initialEngineState [⟨some 0, 0.8, 0.6, 0.5, 0.4⟩] (-1) 0 0) 500
        = -(7/20))]
    norm_num

/-- C7 amended: for a negative stated duration the capped progress never
exceeds 1, so the finished branch is unreachable and the speaking update is
fully determined by the sample lookup, which runs first: it samples (or
throws) exactly as for a positive duration instead of reporting no
playback. -/
theorem nonpositive_duration_amended (config : AnimationConfig)
    (s : EngineState) (now : ℚ) (hdur : s.speakingDuration < 0) :
    ¬ 1 < cappedProgress s now ∧
    updateSpeakingAnimation config s now =
      (match getCurrentSpeakingData s now with
       | .error err => .error err
       | .ok none => .ok (s, 0)
       | .ok (some speakingData) => .ok (speakingAdvance config s speakingData)) := by
  have h1 : ¬ 1 < cappedProgress s now := not_lt.mpr (min_le_right _ _)
  refine ⟨h1, ?_⟩
  unfold updateSpeakingAnimation
  cases getCurrentSpeakingData s now with
  | error err => rfl
  | ok o =>
    cases o with
    | none => rfl
    | some speakingData => simp [h1]

theorem nonpositive_duration_amended_witness :
    (setAudioAnalysisData initialEngineState
        [⟨some 0, 0.8, 0.6, 0.5, 0.4⟩] (-1) 0 0).speakingDuration < 0 ∧
    ¬ 1 < cappedProgress (setAudioAnalysisData initialEngineState
        [⟨some 0, 0.8, 0.6, 0.5, 0.4⟩] (-1) 0 0) 500 := by
  have hdur : (setAudioAnalysisData initialEngineState
      [⟨some 0, 0.8, 0.6, 0.5, 0.4⟩] (-1) 0 0).speakingDuration < 0 := by
    rw [(by with_unfolding_all rfl : (setAudioAnalysisData initialEngineState
        [⟨some 0, 0.8, 0.6, 0.5, 0.4⟩] (-1) 0 0).speakingDuration = -1000)]
    norm_num
  exact ⟨hdur, (nonpositive_duration_amended ANIMATION_CONFIG _ 500 hdur).1⟩

/-- C3: scheduleReconnect always schedules a timer whose delay is
`min(wsReconnectDelay * 1.5^(n-1), 10000)` for `n` the post-increment
attempt number; the counter increments below the maximum and restarts at 1
(base delay) once it has reached the maximum; and the manager's `onopen`
handler resets the counter to 0. -/
theorem reconnect_backoff_spec (timing : TimingConfig) (s : WSState) :
    (scheduleReconnect timing s).reconnectTimerId.isSome ∧
    (scheduleReconnect timing s).lastScheduledDelay =
      some (min (timing.wsReconnectDelay *
        (3/2 : ℚ) ^ ((scheduleReconnect timing s).reconnectAttempts - 1))
        10000) ∧
    (s.reconnectAttempts < timing.maxReconnectAttempts →
      (scheduleReconnect timing s).reconnectAttempts
        = s.reconnectAttempts + 1) ∧
    (timing.maxReconnectAttempts ≤ s.reconnectAttempts →
      (scheduleReconnect timing s).reconnectAttempts = 1 ∧
      (scheduleReconnect timing s).lastScheduledDelay =
        some (min (timing.wsReconnectDelay * (3/2 : ℚ) ^ (0 : ℕ)) 10000)) ∧
    (∀ t, s.ws = some t → t.readyState = .connecting →
      (wsStep timing s .openEvt).reconnectAttempts = 0) := by
  have hattempts : (clearReconnectTimer s).reconnectAttempts
      = s.reconnectAttempts := by
    unfold clearReconnectTimer
    cases s.reconnectTimerId <;> rfl
  refine ⟨?_, ?_, ?_, ?_, ?_⟩
  · unfold scheduleReconnect
    simp
  · unfold scheduleReconnect
    simp
  · intro hlt
    unfold scheduleReconnect
    simp only [hattempts]
    rw [if_neg (by omega)]
  · intro hge
    unfold scheduleReconnect
    simp only [hattempts]
    rw [if_pos (by omega)]
    exact ⟨rfl, rfl⟩
  · intro t hws hconn
    unfold wsStep
    rw [hws]
    simp [hconn]

theorem reconnect_backoff_spec_witness :
    initWSState.reconnectAttempts < TIMING_CONFIG.maxReconnectAttempts ∧
    (scheduleReconnect TIMING_CONFIG initWSState).reconnectAttempts
      = initWSState.reconnectAttempts + 1 ∧
    (scheduleReconnect TIMING_CONFIG initWSState).lastScheduledDelay =
      some (min (TIMING_CONFIG.wsReconnectDelay *
        (3/2 : ℚ) ^ ((scheduleReconnect TIMING_CONFIG initWSState).reconnectAttempts - 1))
        10000) :=
  ⟨by decide,
   (reconnect_backoff_spec TIMING_CONFIG initWSState).2.2.1 (by decide),
   (reconnect_backoff_spec TIMING_CONFIG initWSState).2.1⟩

/-- C4 counterexample: after `connect()` then a manual `disconnect()`, the
delivery of the closed transport's queued close event — whose `onclose`
handler is never detached — schedules a fresh reconnect timer with no
intervening call to `connect()`, refuting "no step thereafter schedules a
new reconnect timer until connect() is called again". -/
theorem disconnect_reconnect_cex :
    (runWS TIMING_CONFIG [.connect, .disconnect]).reconnectTimerId = none ∧
    (runWS TIMING_CONFIG [.connect, .disconnect]).liveTimers = [] ∧
    (runWS TIMING_CONFIG [.connect, .disconnect]).pendingCloseEvents = [0] ∧
    (runWS TIMING_CONFIG [.connect, .disconnect, .queuedClose 0]).reconnectTimerId
      = some 0 ∧
    (runWS TIMING_CONFIG [.connect, .disconnect, .queuedClose 0]).liveTimers
      = [(0, 1000)] := by
  refine ⟨by with_unfolding_all rfl, by with_unfolding_all rfl,
    by with_unfolding_all rfl, by with_unfolding_all rfl,
    by with_unfolding_all rfl⟩

theorem WSInv_congr {s s' : WSState} (hl : s'.liveTimers = s.liveTimers)
    (ht : s'.reconnectTimerId = s.reconnectTimerId) (h : WSInv s) :
    WSInv s' := by
  rcases h with h | ⟨tid, d, h1, h2⟩
  · exact Or.inl (by rw [hl, h])
  · exact Or.inr ⟨tid, d, by rw [hl, h1], by rw [ht, h2]⟩

theorem clearReconnectTimer_timerId (s : WSState) :
    (clearReconnectTimer s).reconnectTimerId = none := by
  unfold clearReconnectTimer
  cases h : s.reconnectTimerId <;> simp [h]

theorem clearReconnectTimer_live (s : WSState) (h : WSInv s) :
    (clearReconnectTimer s).liveTimers = [] := by
  unfold clearReconnectTimer
  cases hid : s.reconnectTimerId with
  | none =>
    rcases h with h1 | ⟨tid, d, _, h2⟩
    · exact h1
    · rw [hid] at h2; exact Option.noConfusion h2
  | some tid =>
    rcases h with h1 | ⟨tid', d, h1, h2⟩
    · simp [h1]
    · rw [hid] at h2
      injection h2 with h2
      subst h2
      simp [h1]

theorem wsCleanup_timers (s : WSState) :
    (wsCleanup s).liveTimers = s.liveTimers ∧
    (wsCleanup s).reconnectTimerId = s.reconnectTimerId := by
  unfold wsCleanup
  cases s.ws <;> exact ⟨rfl, rfl⟩

theorem wsConnect_timers (s : WSState) :
    (wsConnect s).liveTimers = s.liveTimers ∧
    (wsConnect s).reconnectTimerId = s.reconnectTimerId := by
  unfold wsConnect wsCleanup
  cases s.ws with
  | none => exact ⟨rfl, rfl⟩
  | some t =>
    by_cases hc : t.readyState = .connecting <;> simp [hc]

theorem scheduleReconnect_inv (timing : TimingConfig) (s : WSState)
    (h : WSInv s) :
    WSInv (scheduleReconnect timing s) ∧
    (scheduleReconnect timing s).reconnectTimerId.isSome ∧
    (scheduleReconnect timing s).liveTimers.length = 1 := by
  unfold scheduleReconnect
  simp only [clearReconnectTimer_live s h, List.nil_append]
  exact ⟨Or.inr ⟨_, _, rfl, rfl⟩, rfl, rfl⟩

theorem wsStep_inv (timing : TimingConfig) (s : WSState) (ev : WSEvent)
    (h : WSInv s) : WSInv (wsStep timing s ev) := by
  cases ev with
  | connect =>
    exact WSInv_congr (wsConnect_timers s).1 (wsConnect_timers s).2 h
  | connectFail =>
    show WSInv (match s.ws with
      | some t => if t.readyState = .connecting then s
          else scheduleReconnect timing (wsCleanup s)
      | none => scheduleReconnect timing (wsCleanup s))
    have hclean : WSInv (wsCleanup s) :=
      WSInv_congr (wsCleanup_timers s).1 (wsCleanup_timers s).2 h
    cases s.ws with
    | none => exact (scheduleReconnect_inv timing _ hclean).1
    | some t =>
      by_cases hc : t.readyState = .connecting
      · simp only [hc, if_true]; exact h
      · simp only [hc, if_false]
        exact (scheduleReconnect_inv timing _ hclean).1
  | disconnect =>
    have hclean : WSInv (wsCleanup s) :=
      WSInv_congr (wsCleanup_timers s).1 (wsCleanup_timers s).2 h
    exact Or.inl (clearReconnectTimer_live _ hclean)
  | openEvt =>
    show WSInv (match s.ws with
      | some t =>
        if t.readyState = .connecting then
          { s with ws := some { t with readyState := .opened },
                   reconnectAttempts := 0 }
        else s
      | none => s)
    cases s.ws with
    | none => exact h
    | some t =>
      by_cases hc : t.readyState = .connecting
      · simp only [hc, if_true]
        exact WSInv_congr rfl rfl h
      · simp only [hc, if_false]; exact h
  | remoteClose =>
    show WSInv (match s.ws with
      | some t =>
        scheduleReconnect timing
          { s with ws := some { t with readyState := .closed } }
      | none => s)
    cases s.ws with
    | none => exact h
    | some t =>
      have h' : WSInv { s with ws := some { t with readyState := .closed } } :=
        WSInv_congr rfl rfl h
      exact (scheduleReconnect_inv timing _ h').1
  | queuedClose tid =>
    show WSInv (if s.pendingCloseEvents.contains tid then
      scheduleReconnect timing
        { s with pendingCloseEvents := s.pendingCloseEvents.filter (· ≠ tid) }
      else s)
    by_cases hc : s.pendingCloseEvents.contains tid
    · simp only [hc, if_true]
      have h' : WSInv
          { s with pendingCloseEvents := s.pendingCloseEvents.filter (· ≠ tid) } :=
        WSInv_congr rfl rfl h
      exact (scheduleReconnect_inv timing _ h').1
    · simp only [hc, if_false]
      exact h
  | timerFire tid =>
    show WSInv (match s.liveTimers.lookup tid with
      | some _ =>
        wsConnect { s with liveTimers := s.liveTimers.filter (fun t => t.1 ≠ tid) }
      | none => s)
    cases hl : s.liveTimers.lookup tid with
    | none => exact h
    | some d =>
      have hfil : WSInv { s with liveTimers := s.liveTimers.filter (fun t => t.1 ≠ tid) } := by
        rcases h with h1 | ⟨tid', d', h1, h2⟩
        · exact Or.inl (by simp [h1])
        · by_cases he : tid' = tid
          · exact Or.inl (by simp [h1, he])
          · exact Or.inr ⟨tid', d', by simp [h1, he], h2⟩
      exact WSInv_congr (wsConnect_timers _).1 (wsConnect_timers _).2 hfil

theorem runWS_inv (timing : TimingConfig) (evs : List WSEvent) :
    WSInv (runWS timing evs) := by
  have hgen : ∀ (l : List WSEvent) (s : WSState), WSInv s →
      WSInv (l.foldl (wsStep timing) s) := by
    intro l
    induction l with
    | nil => exact fun s hs => hs
    | cons ev l ih =>
      intro s hs
      exact ih _ (wsStep_inv timing s ev hs)
  exact hgen evs initWSState (Or.inl rfl)

/-- C4 amended: in every reachable state at most one reconnect timer is
pending, and `disconnect()` nulls the timer field, closes the transport and
(in any reachable state) leaves no live timer; however, the closed
transport's still-attached `onclose` handler does schedule a new reconnect
timer when its queued close event is delivered, without any new call to
`connect()`. -/
theorem reconnect_timer_invariant_amended (timing : TimingConfig) :
    (∀ evs : List WSEvent, (runWS timing evs).liveTimers.length ≤ 1) ∧
    (∀ s : WSState, (wsDisconnect s).reconnectTimerId = none ∧
      (wsDisconnect s).ws = none ∧
      (WSInv s → (wsDisconnect s).liveTimers = [])) ∧
    (∀ (s : WSState) (tid : ℕ), s.pendingCloseEvents.contains tid →
      ((wsStep timing s (.queuedClose tid)).reconnectTimerId).isSome) := by
  refine ⟨?_, ?_, ?_⟩
  · intro evs
    rcases runWS_inv timing evs with h | ⟨tid, d, h, _⟩ <;> simp [h]
  · intro s
    refine ⟨clearReconnectTimer_timerId _, ?_, ?_⟩
    · show (clearReconnectTimer (wsCleanup s)).ws = none
      have hws : (wsCleanup s).ws = none := by
        unfold wsCleanup
        cases h : s.ws <;> simp [h]
      unfold clearReconnectTimer
      cases (wsCleanup s).reconnectTimerId <;> simpa using hws
    · intro h
      exact clearReconnectTimer_live _
        (WSInv_congr (wsCleanup_timers s).1 (wsCleanup_timers s).2 h)
  · intro s tid hc
    show ((if s.pendingCloseEvents.contains tid then
        scheduleReconnect timing
          { s with pendingCloseEvents := s.pendingCloseEvents.filter (· ≠ tid) }
        else s).reconnectTimerId).isSome
    rw [if_pos hc]
    unfold scheduleReconnect
    rfl

theorem reconnect_timer_invariant_amended_witness :
    (runWS TIMING_CONFIG [.connect, .disconnect, .queuedClose 0]).liveTimers.length ≤ 1 ∧
    (wsDisconnect (runWS TIMING_CONFIG [.connect])).reconnectTimerId = none ∧
    (runWS TIMING_CONFIG [.connect, .disconnect]).pendingCloseEvents.contains 0 = true ∧
    ((wsStep TIMING_CONFIG (runWS TIMING_CONFIG [.connect, .disconnect])
      (.queuedClose 0)).reconnectTimerId).isSome :=
  ⟨(reconnect_timer_invariant_amended TIMING_CONFIG).1
      [.connect, .disconnect, .queuedClose 0],
   ((reconnect_timer_invariant_amended TIMING_CONFIG).2.1
      (runWS TIMING_CONFIG [.connect])).1,
   by with_unfolding_all rfl,
   (reconnect_timer_invariant_amended TIMING_CONFIG).2.2
      (runWS TIMING_CONFIG [.connect, .disconnect]) 0
      (by with_unfolding_all rfl)⟩

theorem min_le_dynamicSmooth (current target baseFactor : ℚ)
    (hb : 0 ≤ baseFactor) :
    min current target ≤ dynamicSmooth current target baseFactor := by
  unfold dynamicSmooth
  simp only
  have hf0 : 0 ≤ min (baseFactor * (1 + |target - current| * (1/2))) (3/10) := by
    apply le_min _ (by norm_num)
    have := abs_nonneg (target - current)
    nlinarith
  have hf1 : min (baseFactor * (1 + |target - current| * (1/2))) (3/10) ≤ 1 :=
    le_trans (min_le_right _ _) (by norm_num)
  rcases le_total current target with h | h
  · rw [min_eq_left h]
    nlinarith
  · rw [min_eq_right h]
    nlinarith

theorem dynamicSmooth_le_max (current target baseFactor : ℚ)
    (hb : 0 ≤ baseFactor) :
    dynamicSmooth current target baseFactor ≤ max current target := by
  unfold dynamicSmooth
  simp only
  have hf0 : 0 ≤ min (baseFactor * (1 + |target - current| * (1/2))) (3/10) := by
    apply le_min _ (by norm_num)
    have := abs_nonneg (target - current)
    nlinarith
  have hf1 : min (baseFactor * (1 + |target - current| * (1/2))) (3/10) ≤ 1 :=
    le_trans (min_le_right _ _) (by norm_num)
  rcases le_total current target with h | h
  · rw [max_eq_right h]
    nlinarith
  · rw [max_eq_left h]
    nlinarith

theorem dynamicSmooth_mem {lo hi current target : ℚ} (baseFactor : ℚ)
    (hb : 0 ≤ baseFactor) (hc1 : lo ≤ current) (hc2 : current ≤ hi)
    (ht1 : lo ≤ target) (ht2 : target ≤ hi) :
    lo ≤ dynamicSmooth current target baseFactor ∧
    dynamicSmooth current target baseFactor ≤ hi :=
  ⟨le_trans (le_min hc1 ht1) (min_le_dynamicSmooth _ _ _ hb),
   le_trans (dynamicSmooth_le_max _ _ _ hb) (max_le hc2 ht2)⟩

theorem clamp_mem {lo hi : ℚ} (v : ℚ) (h : lo ≤ hi) :
    lo ≤ clamp v lo hi ∧ clamp v lo hi ≤ hi :=
  ⟨le_min (le_max_right _ _) h, min_le_right _ _⟩

theorem updateHaloProperties_haloInv (config : AnimationConfig)
    (s : EngineState) (influences : ℚ × ℚ)
    (hsm : config.minScale ≤ config.maxScale)
    (hbm : config.minBrightness ≤ config.maxBrightness)
    (hlm : config.minBlur ≤ config.maxBlur)
    (h : haloInv config s) :
    haloInv config (updateHaloProperties config s influences) := by
  obtain ⟨h1, h2, h3, h4, h5, h6⟩ := h
  unfold updateHaloProperties
  refine ⟨?_, ?_, ?_, ?_, ?_, ?_⟩ <;> simp only
  · exact (dynamicSmooth_mem _ (by norm_num) h1 h2
      (clamp_mem _ hsm).1 (clamp_mem _ hsm).2).1
  · exact (dynamicSmooth_mem _ (by norm_num) h1 h2
      (clamp_mem _ hsm).1 (clamp_mem _ hsm).2).2
  · exact (dynamicSmooth_mem _ (by norm_num) h3 h4
      (clamp_mem _ hbm).1 (clamp_mem _ hbm).2).1
  · exact (dynamicSmooth_mem _ (by norm_num) h3 h4
      (clamp_mem _ hbm).1 (clamp_mem _ hbm).2).2
  · exact (dynamicSmooth_mem _ (by norm_num) h5 h6
      (clamp_mem _ hlm).1 (clamp_mem _ hlm).2).1
  · exact (dynamicSmooth_mem _ (by norm_num) h5 h6
      (clamp_mem _ hlm).1 (clamp_mem _ hlm).2).2

theorem speakingAdvance_haloInv (config : AnimationConfig) (s : EngineState)
    (speakingData : CurrentSpeakingData) (hrest : restingWithinBounds config)
    (h : haloInv config s) :
    haloInv config (speakingAdvance config s speakingData).1 := by
  obtain ⟨hr1, hr2, hr3, hr4, hr5, hr6⟩ := hrest
  unfold speakingAdvance calculateDisplacement
  simp only
  have hs1 : haloInv config (updateAudioSmoothing s speakingData) := h
  have hs2 := updateHaloProperties_haloInv config
    (updateAudioSmoothing s speakingData)
    (calculateAudioInfluences (updateAudioSmoothing s speakingData))
    (le_trans hr1 hr2) (le_trans hr3 hr4) (le_trans hr5 hr6) hs1
  exact hs2

theorem updateIdleAnimation_haloInv (config : AnimationConfig)
    (s : EngineState) (hrest : restingWithinBounds config)
    (h : haloInv config s) :
    haloInv config (updateIdleAnimation s).1 := by
  obtain ⟨hr1, hr2, hr3, hr4, hr5, hr6⟩ := hrest
  obtain ⟨h1, h2, h3, h4, h5, h6⟩ := h
  unfold updateIdleAnimation
  refine ⟨?_, ?_, ?_, ?_, ?_, ?_⟩ <;> simp only
  · exact (dynamicSmooth_mem _ (by norm_num) h1 h2 hr1 hr2).1
  · exact (dynamicSmooth_mem _ (by norm_num) h1 h2 hr1 hr2).2
  · exact (dynamicSmooth_mem _ (by norm_num) h3 h4 hr3 hr4).1
  · exact (dynamicSmooth_mem _ (by norm_num) h3 h4 hr3 hr4).2
  · exact (dynamicSmooth_mem _ (by norm_num) h5 h6 hr5 hr6).1
  · exact (dynamicSmooth_mem _ (by norm_num) h5 h6 hr5 hr6).2

theorem updateSpeakingAnimation_cases (config : AnimationConfig)
    (s : EngineState) (now : ℚ) (s' : EngineState) (d : ℚ)
    (h : updateSpeakingAnimation config s now = .ok (s', d)) :
    s' = s ∨ ∃ speakingData, (s', d) = speakingAdvance config s speakingData := by
  unfold updateSpeakingAnimation at h
  cases hg : getCurrentSpeakingData s now with
  | error err => rw [hg] at h; exact Except.noConfusion h
  | ok o =>
    rw [hg] at h
    cases o with
    | none =>
      injection h with h
      exact Or.inl (congrArg Prod.fst h.symm)
    | some speakingData =>
      dsimp only at h
      by_cases hp : 1 < cappedProgress s now
      · rw [if_pos hp] at h
        injection h with h
        exact Or.inl (congrArg Prod.fst h.symm)
      · rw [if_neg hp] at h
        injection h with h
        exact Or.inr ⟨speakingData, h.symm⟩

theorem engineStep_haloInv (config : AnimationConfig) (s : EngineState)
    (ev : EngineEvent) (hrest : restingWithinBounds config)
    (h : haloInv config s) : haloInv config (engineStep config s ev) := by
  cases ev with
  | setData analysis duration startTime now => exact h
  | clearData => exact h
  | tick mode now =>
    show haloInv config (match updateAnimationState config s mode now with
      | .error _ => s
      | .ok (s', _) => s')
    unfold updateAnimationState
    by_cases hc : mode = .speaking ∧ s.audioAnalysisData.isSome
    · rw [if_pos hc]
      cases hu : updateSpeakingAnimation config s now with
      | error err => exact h
      | ok p =>
        obtain ⟨s', d⟩ := p
        rcases updateSpeakingAnimation_cases config s now s' d hu with
          he | ⟨speakingData, he⟩
        · simpa [he] using h
        · have := speakingAdvance_haloInv config s speakingData hrest h
          rw [← he] at this
          exact this
    · rw [if_neg hc]
      exact updateIdleAnimation_haloInv config s hrest h

/-- C5: starting from the engine's initial values and for every sequence of
stimuli — render ticks in any mode, `audio_analysis` payloads with
arbitrarily extreme sample values, clears — the smoothed halo scale,
brightness and blur remain inside the configured
`[minScale, maxScale]`, `[minBrightness, maxBrightness]` and
`[minBlur, maxBlur]` respectively, provided each resting value lies inside
its own bounds (as in ANIMATION_CONFIG). -/
theorem halo_bounds_invariant (config : AnimationConfig)
    (hrest : restingWithinBounds config) (evs : List EngineEvent) :
    haloInv config (runEngine config evs) := by
  obtain ⟨hr1, hr2, hr3, hr4, hr5, hr6⟩ := hrest
  have hgen : ∀ (l : List EngineEvent) (s : EngineState), haloInv config s →
      haloInv config (l.foldl (engineStep config) s) := by
    intro l
    induction l with
    | nil => exact fun s hs => hs
    | cons ev l ih =>
      intro s hs
      exact ih _ (engineStep_haloInv config s ev
        ⟨hr1, hr2, hr3, hr4, hr5, hr6⟩ hs)
  exact hgen evs initialEngineState ⟨hr1, hr2, hr3, hr4, hr5, hr6⟩

theorem halo_bounds_invariant_witness :
    restingWithinBounds ANIMATION_CONFIG ∧
    haloInv ANIMATION_CONFIG (runEngine ANIMATION_CONFIG
      [.setData [⟨none, 5, 5, 5, 5⟩] 1 0 0,
       .tick .speaking 300, .tick .speaking 316, .tick .idle 400]) := by
  have hrest : restingWithinBounds ANIMATION_CONFIG := by
    unfold restingWithinBounds ANIMATION_CONFIG
    norm_num
  exact ⟨hrest, halo_bounds_invariant ANIMATION_CONFIG hrest
    [.setData [⟨none, 5, 5, 5, 5⟩] 1 0 0,
     .tick .speaking 300, .tick .speaking 316, .tick .idle 400]⟩

theorem binarySearchGo_step (data : List AudioAnalysisData) (e : ℚ)
    (left right : ℤ) (result : ℕ) (h : left ≤ right) :
    binarySearchGo data e left right result =
      if timeAt data ((left + right).fdiv 2).toNat ≤ e then
        binarySearchGo data e ((left + right).fdiv 2 + 1) right
          ((left + right).fdiv 2).toNat
      else binarySearchGo data e left ((left + right).fdiv 2 - 1) result := by
  rw [binarySearchGo.eq_def, dif_pos h]

theorem binarySearchGo_stop (data : List AudioAnalysisData) (e : ℚ)
    (left right : ℤ) (result : ℕ) (h : ¬ left ≤ right) :
    binarySearchGo data e left right result = result := by
  rw [binarySearchGo.eq_def, dif_neg h]

/-- The loop invariant proof for binarySearchByTime: on a sequence whose
`time || 0` values are monotone, the loop run on `[left, right]` with
accumulator `result` finds the greatest index whose time is `≤ e`, or
returns 0 when no time is `≤ e`. -/
theorem binarySearchGo_spec (data : List AudioAnalysisData) (e : ℚ)
    (hmono : ∀ j, j < data.length → ∀ i, i ≤ j →
      timeAt data i ≤ timeAt data j)
    (left right : ℤ) (result : ℕ)
    (hl : 0 ≤ left)
    (hr : right < (data.length : ℤ))
    (hlr : left ≤ right + 1)
    (hres : (left = 0 ∧ result = 0) ∨
      ((result : ℤ) + 1 = left ∧ timeAt data result ≤ e))
    (hhigh : ∀ j : ℕ, right < (j : ℤ) → j < data.length → e < timeAt data j)
    (hlow : ∀ j : ℕ, (j : ℤ) < left → timeAt data j ≤ e) :
    ((∀ i, i < data.length → e < timeAt data i) →
      binarySearchGo data e left right result = 0) ∧
    ((∃ i, i < data.length ∧ timeAt data i ≤ e) →
      binarySearchGo data e left right result < data.length ∧
      timeAt data (binarySearchGo data e left right result) ≤ e ∧
      ∀ j, binarySearchGo data e left right result < j → j < data.length →
        e < timeAt data j) := by
  by_cases h : left ≤ right
  · have hmge := midpoint_ge h
    have hmle := midpoint_le h
    have hmidnat : (((left + right).fdiv 2).toNat : ℤ) = (left + right).fdiv 2 :=
      Int.toNat_of_nonneg (le_trans hl hmge)
    by_cases ht : timeAt data ((left + right).fdiv 2).toNat ≤ e
    · rw [binarySearchGo_step data e left right result h, if_pos ht]
      apply binarySearchGo_spec data e hmono ((left + right).fdiv 2 + 1) right
        ((left + right).fdiv 2).toNat
      · omega
      · exact hr
      · omega
      · exact Or.inr ⟨by omega, ht⟩
      · exact hhigh
      · intro j hj
        have hjle : j ≤ ((left + right).fdiv 2).toNat := by omega
        have hmlt : ((left + right).fdiv 2).toNat < data.length := by omega
        exact le_trans (hmono _ hmlt j hjle) ht
    · rw [binarySearchGo_step data e left right result h, if_neg ht]
      apply binarySearchGo_spec data e hmono left ((left + right).fdiv 2 - 1)
        result
      · exact hl
      · omega
      · omega
      · exact hres
      · intro j hj hjlen
        have hle : ((left + right).fdiv 2).toNat ≤ j := by omega
        exact lt_of_lt_of_le (not_le.mp ht) (hmono j hjlen _ hle)
      · exact hlow
  · rw [binarySearchGo_stop data e left right result h]
    constructor
    · intro hall
      rcases hres with ⟨_, hr0⟩ | ⟨hres1, hres2⟩
      · exact hr0
      · exfalso
        have hrlen : result < data.length := by omega
        exact absurd hres2 (not_le.mpr (hall result hrlen))
    · intro hex
      rcases hres with ⟨hl0, hr0⟩ | ⟨hres1, hres2⟩
      · exfalso
        obtain ⟨i, hi, hie⟩ := hex
        exact absurd hie (not_le.mpr (hhigh i (by omega) hi))
      · refine ⟨by omega, hres2, ?_⟩
        intro j hj hjlen
        exact hhigh j (by omega) hjlen
termination_by (right + 1 - left).toNat
decreasing_by
  · omega
  · omega

/-- C1: for a nonempty sample sequence whose first element carries a `time`
and whose `time || 0` values are sorted ascending, findDataIndex performs
the binary search and returns the greatest index whose time is at most the
elapsed seconds (ties resolved toward the later index, since no strictly
later index may satisfy the bound), and returns 0 when every sample's time
exceeds the elapsed seconds. -/
theorem findDataIndex_greatest (data : List AudioAnalysisData)
    (speakingDuration e : ℚ) (hne : data ≠ [])
    (hfirst : ((data.head?).bind AudioAnalysisData.time).isSome)
    (hmono : ∀ j, j < data.length → ∀ i, i ≤ j →
      timeAt data i ≤ timeAt data j) :
    ((∀ i, i < data.length → e < timeAt data i) →
      findDataIndex data speakingDuration e = 0) ∧
    ((∃ i, i < data.length ∧ timeAt data i ≤ e) →
      ∃ k : ℕ, findDataIndex data speakingDuration e = (k : ℤ) ∧
        k < data.length ∧ timeAt data k ≤ e ∧
        ∀ j, k < j → j < data.length → e < timeAt data j) := by
  have hlen : 0 < data.length := List.length_pos.mpr hne
  have hbin := binarySearchGo_spec data e hmono 0 ((data.length : ℤ) - 1) 0
    (le_refl 0) (by omega) (by omega) (Or.inl ⟨rfl, rfl⟩)
    (fun j hj hjlen => absurd hjlen (by omega))
    (fun j hj => absurd hj (by omega))
  have hfind : findDataIndex data speakingDuration e =
      (binarySearchGo data e 0 ((data.length : ℤ) - 1) 0 : ℤ) := by
    unfold findDataIndex binarySearchByTime
    rw [if_pos hfirst]
  constructor
  · intro hall
    rw [hfind, hbin.1 hall]
    rfl
  · intro hex
    obtain ⟨hb1, hb2, hb3⟩ := hbin.2 hex
    exact ⟨binarySearchGo data e 0 ((data.length : ℤ) - 1) 0, hfind, hb1,
      hb2, hb3⟩

theorem findDataIndex_greatest_witness :
    (∃ i, i < ([⟨some 0, 0, 0, 0, 0⟩, ⟨some (1/2), 0, 0, 0, 0⟩,
        ⟨some 1, 0, 0, 0, 0⟩] : List AudioAnalysisData).length ∧
      timeAt [⟨some 0, 0, 0, 0, 0⟩, ⟨some (1/2), 0, 0, 0, 0⟩,
        ⟨some 1, 0, 0, 0, 0⟩] i ≤ 3/5) ∧
    (∃ k : ℕ, findDataIndex [⟨some 0, 0, 0, 0, 0⟩, ⟨some (1/2), 0, 0, 0, 0⟩,
        ⟨some 1, 0, 0, 0, 0⟩] 1000 (3/5) = (k : ℤ) ∧
      k < 3 ∧
      timeAt [⟨some 0, 0, 0, 0, 0⟩, ⟨some (1/2), 0, 0, 0, 0⟩,
        ⟨some 1, 0, 0, 0, 0⟩] k ≤ 3/5 ∧
      ∀ j, k < j → j < 3 →
        3/5 < timeAt [⟨some 0, 0, 0, 0, 0⟩, ⟨some (1/2), 0, 0, 0, 0⟩,
          ⟨some 1, 0, 0, 0, 0⟩] j) := by
  have hmono : ∀ j, j < ([⟨some 0, 0, 0, 0, 0⟩, ⟨some (1/2), 0, 0, 0, 0⟩,
      ⟨some 1, 0, 0, 0, 0⟩] : List AudioAnalysisData).length → ∀ i, i ≤ j →
      timeAt [⟨some 0, 0, 0, 0, 0⟩, ⟨some (1/2), 0, 0, 0, 0⟩,
        ⟨some 1, 0, 0, 0, 0⟩] i ≤
      timeAt [⟨some 0, 0, 0, 0, 0⟩, ⟨some (1/2), 0, 0, 0, 0⟩,
        ⟨some 1, 0, 0, 0, 0⟩] j := by
    intro j hj i hij
    have hj3 : j < 3 := by simpa using hj
    clear hj
    interval_cases j <;> interval_cases i <;> norm_num [timeAt, jsOrZero]
  have hex : ∃ i, i < ([⟨some 0, 0, 0, 0, 0⟩, ⟨some (1/2), 0, 0, 0, 0⟩,
      ⟨some 1, 0, 0, 0, 0⟩] : List AudioAnalysisData).length ∧
      timeAt [⟨some 0, 0, 0, 0, 0⟩, ⟨some (1/2), 0, 0, 0, 0⟩,
        ⟨some 1, 0, 0, 0, 0⟩] i ≤ 3/5 := by
    refine ⟨0, by norm_num, ?_⟩
    show jsOrZero ((((([⟨some 0, 0, 0, 0, 0⟩, ⟨some (1/2), 0, 0, 0, 0⟩,
      ⟨some 1, 0, 0, 0, 0⟩] : List AudioAnalysisData).get? 0)).bind
        AudioAnalysisData.time).getD 0) ≤ 3/5
    norm_num [jsOrZero]
  exact ⟨hex, (findDataIndex_greatest _ 1000 (3/5) (by simp) (by simp)
    hmono).2 hex⟩

end Luna
